import Mathlib

/-!
Shallow embedding of the fbi-annotations core: the criteria-matching
predicate `AppliesTo.matches` (src/annotation.py), the query built by
`es_find_fbi_annotations` (src/elasticsearch_backend.py) including its
ancestor walk over `os.path.dirname`, the expiry exclusion clause, the
result-size cap, and the `merge_annotations` fold.

Dates and timestamps are embedded as integers carrying the order of the
corresponding ISO strings (for example 2025-03-07 is written 20250307);
`datetime.fromisoformat` is an order embedding from valid ISO strings, so
the strict and non-strict comparisons of the source translate verbatim.
Python dictionaries are embedded as insertion-ordered association lists.
-/

namespace FBIA

/-- Python `str.startswith`: a raw character-for-character test on the
front of the string, exactly as used at src/annotation.py line 23
(no path-segment boundary is involved). -/
def pyStartswith (s front : String) : Bool := front.data.isPrefixOf s.data

/-- Python `str.endswith`, as used at src/annotation.py line 25. -/
def pyEndswith (s tail : String) : Bool := tail.data.isSuffixOf s.data

/-- Modelled from the spec: the `FileContext` record handed to
`AppliesTo.matches` (the `AnnotationContext` class and the date
extractor are not present under src/; only their use inside
`AppliesTo.matches` is).  The fields are exactly those the source
predicate reads: `context.path`, `context.type`, `context.size` and the
result of `context._extract_date()`, the last embedded as an opaque
optional integer date. -/
structure AnnotationContext where
  path : String
  type : Option String := none
  size : Int
  extracted_date : Option Int := none

/-- The `AppliesTo` dataclass of src/annotation.py lines 9-18.  Every
field is optional (`None` when absent).  The source's `matches` method
additionally reads `self.type` (line 27) although the dataclass omits
that field; the evident intent is an optional `type` criterion, so it is
included here.  The two date criteria hold the already-parsed value of
`datetime.fromisoformat` as an integer. -/
structure AppliesTo where
  path : Option String := none
  under : Option String := none
  ext : Option String := none
  type : Option String := none
  larger : Option Int := none
  smaller : Option Int := none
  before_regex_date : Option Int := none
  after_regex_date : Option Int := none

/-- `AppliesTo.matches` (src/annotation.py lines 20-44), guard for
guard.  A `None` criterion is skipped; string criteria use Python
truthiness, so an empty string is also skipped; `larger`/`smaller` are
guarded by `is not None`; each date criterion requires the extracted
date to exist and compares strictly. -/
def AppliesTo.matches (a : AppliesTo) (ctx : AnnotationContext) : Bool :=
  (match a.path with
   | none => true
   | some p => p == "" || p == ctx.path) &&
  (match a.under with
   | none => true
   | some u => u == "" || pyStartswith ctx.path u) &&
  (match a.ext with
   | none => true
   | some e => e == "" || pyEndswith ctx.path e) &&
  (match a.type with
   | none => true
   | some t => t == "" || some t == ctx.type) &&
  (match a.larger with
   | none => true
   | some lg => decide (lg < ctx.size)) &&
  (match a.smaller with
   | none => true
   | some sm => decide (ctx.size < sm)) &&
  (match a.before_regex_date with
   | none => true
   | some b =>
     match ctx.extracted_date with
     | none => false
     | some d => decide (d < b)) &&
  (match a.after_regex_date with
   | none => true
   | some x =>
     match ctx.extracted_date with
     | none => false
     | some d => decide (x < d))

/-- The right strip of trailing slashes performed by `os.path.dirname`
(`head.rstrip(sep)` in posixpath). -/
def rstripSlash (l : List Char) : List Char :=
  (l.reverse.dropWhile (fun c => c == '/')).reverse

/-- The `p[:p.rfind(sep) + 1]` part of `os.path.dirname`: the front of
the list up to and including the last slash, empty when no slash
occurs.  The count of characters after the last slash is the length of
the longest non-slash run at the end, read off the reversed list. -/
def headPart (l : List Char) : List Char :=
  l.take (l.length - (l.reverse.takeWhile (fun c => c != '/')).length)

/-- `os.path.dirname` for POSIX paths, transcribed from `posixpath.split`:
keep the front up to the final slash, then strip trailing slashes unless
the front is empty or consists only of slashes. -/
def dirnameL (l : List Char) : List Char :=
  if (headPart l).isEmpty || (headPart l).all (fun c => c == '/') then headPart l
  else rstripSlash (headPart l)

/-- `os.path.dirname` on strings. -/
def dirname (s : String) : String := String.mk (dirnameL s.data)

/-- The ancestor walk of src/elasticsearch_backend.py lines 106-108:
`while parent_path != "": terms.append(parent_path); parent_path =
os.path.dirname(parent_path)`.  The walk is given explicit fuel; `some
terms` is the list of appended terms when the loop exits within the
fuel, `none` records that it did not. -/
def underWalk : Nat → String → Option (List String)
  | 0, p => if p = "" then some [] else none
  | n + 1, p =>
    if p = "" then some []
    else
      match underWalk n (dirname p) with
      | some ts => some (p :: ts)
      | none => none

/-- The FBI record dictionary as read by `es_find_fbi_annotations`
(src/elasticsearch_backend.py): `record["path"]` is always read, and
`ext`, `size` and `regex_date` are consulted through `.get`, hence
optional. -/
structure FBIRecord where
  path : String
  ext : Option String := none
  size : Option Int := none
  regex_date : Option Int := none

/-- A stored annotation document as the compiled query sees it: its
`applies_to` object, the two relative-age fields the query ranges over
(src/elasticsearch_backend.py lines 96-99) and `metadata.expires`
(line 69). -/
structure StoredRule where
  applies_to : AppliesTo := {}
  younger_regex_date : Option Int := none
  older_regex_date : Option Int := none
  expires : Option Int := none

/-- The literal date `"2025-03-07"` hardcoded in the expiry clause at
src/elasticsearch_backend.py line 69 (the `now` computed at line 66 is
never used). -/
def hardcodedExpiryCutoff : Int := 20250307

/-- The `must_not` expiry clause (line 69): a document is excluded iff
`metadata.expires` exists and is at or before the hardcoded cutoff; a
range query does not match a document missing the field. -/
def esExpiryExcluded : Option Int → Bool
  | none => false
  | some e => decide (e ≤ hardcodedExpiryCutoff)

/-- The `should_not` alternative of the `under` clause (line 105)
checks existence of the field `"applies.under"` — a misspelling of
`applies_to.under` — which no stored annotation document carries, so
the existence test is constantly false. -/
def hasAppliesDotUnder (_ : StoredRule) : Bool := false

/-- Whether a stored rule satisfies the query built by
`es_find_fbi_annotations` (src/elasticsearch_backend.py lines 56-108)
for a given record.  Each clause of the source is a
`should`/`should_not` pair read as "the term or range matches, or the
field is absent" per the function's docstring; note the `ext` clause
compares `applies_to.ext` against the literal `".nc"` (line 78) and the
`smaller`/`larger`/date clauses are inclusive ranges.  `now` parametrises
the relative-age clauses.  The `under` term list comes from the fuelled
ancestor walk; the result is `none` when the walk does not exit within
`record.path.length + 1` steps (each productive `dirname` step shortens
the path, so more fuel never helps). -/
def compiledQueryAccepts (now : Int) (rec : FBIRecord) (r : StoredRule) :
    Option Bool :=
  match underWalk (rec.path.length + 1) rec.path with
  | none => none
  | some uterms =>
    let a := r.applies_to
    let cPath :=
      match a.path with
      | none => true
      | some p => p == rec.path
    let cExt :=
      match rec.ext with
      | none => true
      | some _ =>
        match a.ext with
        | none => true
        | some e => e == ".nc"
    let cSize :=
      match rec.size with
      | none => true
      | some s =>
        (match a.smaller with
         | none => true
         | some sm => decide (s ≤ sm)) &&
        (match a.larger with
         | none => true
         | some lg => decide (lg ≤ s))
    let cDate :=
      match rec.regex_date with
      | none => true
      | some d =>
        (match a.before_regex_date with
         | none => true
         | some b => decide (d ≤ b)) &&
        (match a.after_regex_date with
         | none => true
         | some x => decide (x ≤ d)) &&
        (match r.younger_regex_date with
         | none => true
         | some y => decide (y ≤ now - d)) &&
        (match r.older_regex_date with
         | none => true
         | some o => decide (now - d ≤ o))
    let cUnder := uterms.any (fun t => a.under == some t) || !(hasAppliesDotUnder r)
    some (cPath && cExt && cSize && cDate && cUnder && !(esExpiryExcluded r.expires))

/-- A Python value as found in an annotation document. -/
inductive PyVal where
  | pyInt : Int → PyVal
  | pyStr : String → PyVal
  | pyDict : List (String × PyVal) → PyVal

/-- A Python dictionary: an insertion-ordered association list. -/
abbrev Doc := List (String × PyVal)

/-- `d[k] = v` on a Python dictionary: replace in place when the key is
present, append otherwise. -/
def dictSet (d : Doc) (k : String) (v : PyVal) : Doc :=
  if d.any (fun kv => kv.1 == k) then
    d.map (fun kv => if kv.1 == k then (k, v) else kv)
  else d ++ [(k, v)]

/-- `d.update(e)`: set every key of `e` in `d`, in `e`'s order
(src/annotation.py line 153). -/
def dictUpdate (d e : Doc) : Doc :=
  e.foldl (fun acc kv => dictSet acc kv.1 kv.2) d

/-- The Python exception raised by `list.sort()` on dictionaries. -/
inductive PyErr where
  | typeError

/-- `annotations.sort()` (src/annotation.py line 151): Python's sort
compares elements as soon as the list has two of them, and dictionaries
do not support `<`, so any list of two or more dictionaries raises
`TypeError`; shorter lists are returned unchanged. -/
def pySortDicts (l : List Doc) : Except PyErr (List Doc) :=
  if l.length ≤ 1 then Except.ok l else Except.error PyErr.typeError

/-- `merge_annotations` (src/annotation.py lines 148-154): sort the
annotation dictionaries, then fold `merged.update(annotation)` over
them starting from the empty dictionary.  The `merge_strategy` field is
never consulted. -/
def merge_annotations (l : List Doc) : Except PyErr Doc :=
  match pySortDicts l with
  | Except.error e => Except.error e
  | Except.ok sorted => Except.ok (sorted.foldl dictUpdate [])

/-- The fixed result-size cap passed to `ES.search` at
src/elasticsearch_backend.py line 110. -/
def esSearchSize : Nat := 1000

/-- The hit post-processing of lines 111-114: copy the hit identifier
into its source document under `"_id"` and collect the sources. -/
def processHits (hits : List (String × Doc)) : List Doc :=
  hits.map (fun h => dictSet h.2 "_id" (PyVal.pyStr h.1))

/-- The candidate-fetch step: the store returns at most `size` hits for
a search issued with `size=1000`, and the hits are then post-processed
into the returned list. -/
def esFetchCandidates (hits : List (String × Doc)) : List Doc :=
  processHits (hits.take esSearchSize)

/-- Sample annotation `a` of src/annotation.py lines 75-80, as a stored
document. -/
def sampleDocA : Doc :=
  [("applies_to", PyVal.pyDict [("ext", PyVal.pyStr ".nc")]),
   ("annotation", PyVal.pyDict [("format", PyVal.pyStr "NetCDF-4")]),
   ("merge_strategy", PyVal.pyStr "default"),
   ("metadata", PyVal.pyDict [("created_by", PyVal.pyStr "scanner")])]

/-- Sample annotation `b` of src/annotation.py lines 82-87, as a stored
document. -/
def sampleDocB : Doc :=
  [("applies_to", PyVal.pyDict [("path", PyVal.pyStr "/data/cmip5")]),
   ("annotation", PyVal.pyDict [("storage_plan", PyVal.pyStr "tape only")]),
   ("merge_strategy", PyVal.pyStr "override"),
   ("metadata", PyVal.pyDict [("created_by", PyVal.pyStr "SJP")])]

/-- C7: a rule whose criteria set is empty is accepted by the matcher
for every file context — every guard of `AppliesTo.matches` is skipped
when its criterion is absent, so the global rule matches every
record. -/
theorem c7_empty_criteria_matches_all (ctx : AnnotationContext) :
    AppliesTo.matches {} ctx = true := rfl

/-- C1 counterexample: the claim says a rule with `under="/data"` does
not match the context path `"/data2/file.nc"`, but the source tests
`context.path.startswith(self.under)`, a raw string prefix, which
accepts the sibling directory. -/
theorem c1_under_sibling_matches :
    AppliesTo.matches { under := some "/data" }
      { path := "/data2/file.nc", size := 0 } = true := by decide

/-- C1 amended: for a rule whose criteria set specifies a non-empty
`under` and nothing else, the matcher accepts iff the context path
starts with `under` as a raw string (so `/data` matches
`/data/cmip5/file.nc`, `/data`, and also `/data2/file.nc`). -/
theorem c1_under_is_raw_string_test (u : String) (ctx : AnnotationContext)
    (h : u ≠ "") :
    AppliesTo.matches { under := some u } ctx = pyStartswith ctx.path u := by
  have hu : (u == "") = false := by
    simp [h]
  simp [AppliesTo.matches, hu]

/-- C1 amended, witness: the amended statement applied at `under="/data"`
on the context path `"/data/cmip5/file.nc"`. -/
theorem c1_under_is_raw_string_test_w :
    ("/data" : String) ≠ "" ∧
    AppliesTo.matches { under := some "/data" }
        { path := "/data/cmip5/file.nc", size := 0 }
      = pyStartswith "/data/cmip5/file.nc" "/data" :=
  ⟨by decide,
   c1_under_is_raw_string_test "/data"
     { path := "/data/cmip5/file.nc", size := 0 } (by decide)⟩

/-- C8: for a rule specifying only `before_regex_date` (resp.
`after_regex_date`), the matcher accepts iff the context's extracted
date exists and is strictly before (resp. strictly after) the
threshold; with no extractable date the criterion fails, while an
absent criterion still matches. -/
theorem c8_date_criteria (t : Int) (ctx : AnnotationContext) :
    (AppliesTo.matches { before_regex_date := some t } ctx = true ↔
      ∃ d, ctx.extracted_date = some d ∧ d < t) ∧
    (AppliesTo.matches { after_regex_date := some t } ctx = true ↔
      ∃ d, ctx.extracted_date = some d ∧ t < d) ∧
    AppliesTo.matches { before_regex_date := some t }
        { ctx with extracted_date := none } = false ∧
    AppliesTo.matches { after_regex_date := some t }
        { ctx with extracted_date := none } = false ∧
    AppliesTo.matches {} { ctx with extracted_date := none } = true := by
  refine ⟨?_, ?_, ?_, ?_, rfl⟩
  · cases h : ctx.extracted_date with
    | none => simp [AppliesTo.matches, h]
    | some d => simp [AppliesTo.matches, h]
  · cases h : ctx.extracted_date with
    | none => simp [AppliesTo.matches, h]
    | some d => simp [AppliesTo.matches, h]
  · simp [AppliesTo.matches]
  · simp [AppliesTo.matches]

/-- The front part of a list beginning with a slash is a nonempty list
beginning with that slash: the last-slash search finds at least the
leading slash, so the cut index is positive. -/
theorem headPart_cons_slash (t : List Char) :
    ∃ j, headPart ('/' :: t) = '/' :: t.take j := by
  have hsplit :=
    List.takeWhile_append_dropWhile (p := fun c => c != '/')
      (l := ('/' :: t).reverse)
  have hlen := congrArg List.length hsplit
  rw [List.length_append] at hlen
  have hdne : ('/' :: t).reverse.dropWhile (fun c => c != '/') ≠ [] := by
    intro hnil
    rw [List.dropWhile_eq_nil_iff] at hnil
    have h2 := hnil '/' (by simp)
    simp at h2
  have hdpos : 0 < (('/' :: t).reverse.dropWhile (fun c => c != '/')).length :=
    List.length_pos.mpr hdne
  rw [List.length_reverse] at hlen
  obtain ⟨j, hij⟩ :
      ∃ j, ('/' :: t).length
          - (('/' :: t).reverse.takeWhile (fun c => c != '/')).length
        = j + 1 :=
    ⟨('/' :: t).length
        - (('/' :: t).reverse.takeWhile (fun c => c != '/')).length - 1,
      by omega⟩
  exact ⟨j, by unfold headPart; rw [hij, List.take_succ_cons]⟩

/-- Stripping trailing slashes from a list that is not all slashes
keeps it nonempty and preserves its first element. -/
theorem rstripSlash_spec (l : List Char)
    (h : l.all (fun c => c == '/') = false) :
    rstripSlash l ≠ [] ∧ (rstripSlash l).head? = l.head? := by
  have hm : l.reverse.dropWhile (fun c => c == '/') ≠ [] := by
    intro hnil
    rw [List.dropWhile_eq_nil_iff] at hnil
    have hall : l.all (fun c => c == '/') = true := by
      rw [List.all_eq_true]
      intro x hx
      exact hnil x (List.mem_reverse.mpr hx)
    rw [hall] at h
    cases h
  obtain ⟨s, hs⟩ :
      ∃ s, s ++ l.reverse.dropWhile (fun c => c == '/') = l.reverse :=
    ⟨l.reverse.takeWhile (fun c => c == '/'),
      List.takeWhile_append_dropWhile (p := fun c => c == '/')
        (l := l.reverse)⟩
  have hl :
      (l.reverse.dropWhile (fun c => c == '/')).reverse ++ s.reverse = l := by
    rw [← List.reverse_append, hs, List.reverse_reverse]
  obtain ⟨a, as, ha⟩ :=
    List.exists_cons_of_ne_nil
      (fun h2 => hm (List.reverse_eq_nil_iff.mp h2))
  constructor
  · unfold rstripSlash
    rw [ha]
    simp
  · unfold rstripSlash
    rw [ha, ← hl, ha]
    simp

/-- `os.path.dirname` of a list beginning with a slash again begins
with a slash (in particular it is nonempty): this is why the ancestor
walk of the compiled query can never reach the empty string from an
absolute path. -/
theorem dirnameL_cons_slash (t : List Char) :
    (dirnameL ('/' :: t)).head? = some '/' := by
  obtain ⟨j, hj⟩ := headPart_cons_slash t
  unfold dirnameL
  rw [hj]
  by_cases hall : ('/' :: t.take j).all (fun c => c == '/') = true
  · simp [hall]
  · have hall2 : ('/' :: t.take j).all (fun c => c == '/') = false :=
      Bool.eq_false_iff.mpr hall
    rw [if_neg (by simp [hall2])]
    rw [(rstripSlash_spec ('/' :: t.take j) hall2).2]
    rfl

/-- String version of the previous fact. -/
theorem dirname_absolute (s : String) (h : s.data.head? = some '/') :
    (dirname s).data.head? = some '/' := by
  obtain ⟨t, ht⟩ : ∃ t, s.data = '/' :: t := by
    cases hd : s.data with
    | nil => rw [hd] at h; cases h
    | cons a as =>
      rw [hd] at h
      simp at h
      exact ⟨as, by rw [h]⟩
  show (dirnameL s.data).head? = some '/'
  rw [ht]
  exact dirnameL_cons_slash t

/-- No amount of fuel lets the ancestor walk exit when it starts from
an absolute path: every iterate still begins with a slash, so the loop
guard `parent_path != ""` never becomes false. -/
theorem underWalk_absolute_none :
    ∀ (n : Nat) (p : String), p.data.head? = some '/' →
      underWalk n p = none := by
  intro n
  induction n with
  | zero =>
    intro p h
    have hne : p ≠ "" := by
      intro he
      rw [he] at h
      exact absurd h (by decide)
    simp [underWalk, hne]
  | succ n ih =>
    intro p h
    have hne : p ≠ "" := by
      intro he
      rw [he] at h
      exact absurd h (by decide)
    have hrec := ih (dirname p) (dirname_absolute p h)
    simp [underWalk, hne, hrec]

/-- C3: the ancestor walk of the query-compilation step does not
terminate on the context path `/data/cmip5/file.nc` — `os.path.dirname`
maps `"/"` to `"/"`, so from an absolute path the loop variable never
reaches the empty string that the `while` guard tests, for any number
of iterations. -/
theorem c3_under_walk_never_terminates (n : Nat) :
    underWalk n "/data/cmip5/file.nc" = none :=
  underWalk_absolute_none n _ (by decide)

/-- C2: a false negative of the compiled pre-filter.  The record
`a/file.txt` with extension `.txt` and a rule constrained only by
`ext=".txt"` is accepted by `AppliesTo.matches`, yet the compiled query
rejects it because its `ext` clause compares `applies_to.ext` against
the literal `".nc"` instead of the record's extension — contradicting
the claim (and the function's own docstring) that the compiled filter
admits every true match. -/
theorem c2_compiled_filter_false_negative :
    AppliesTo.matches { ext := some ".txt" }
        { path := "a/file.txt", size := 5 } = true ∧
    compiledQueryAccepts 20261012
        { path := "a/file.txt", ext := some ".txt", size := some 5 }
        { applies_to := { ext := some ".txt" } } = some false := by
  constructor <;> decide

/-- C4: evaluating the merge on the claim's input.  Two `addition`
rules emitting `{count: 3}` and `{count: 4}` do not merge to
`{count: 7}`: `merge_annotations` first calls `annotations.sort()`,
which raises `TypeError` on two dictionaries; and the fold it would
perform is `merged.update(annotation)`, under which the key ends at the
later value `4` — the strategy is ignored and values are never
summed. -/
theorem c4_addition_values_not_summed :
    merge_annotations
        [[("count", PyVal.pyInt 3)], [("count", PyVal.pyInt 4)]]
      = Except.error PyErr.typeError ∧
    dictUpdate (dictUpdate [] [("count", PyVal.pyInt 3)])
        [("count", PyVal.pyInt 4)]
      = [("count", PyVal.pyInt 4)] :=
  ⟨rfl, rfl⟩

/-- C5: evaluating the merge on a `default`-strategy scenario.  An
earlier rule contributes `format = "NetCDF-4"` and a later rule with
merge strategy `default` carries `format = "Text"`: the source's
`annotations.sort()` raises `TypeError` on the two dictionaries, and
the fold it would perform, `merged.update(annotation)`, replaces the
earlier value unconditionally — `default` keys are not restricted to
absent keys. -/
theorem c5_default_rule_replaces_earlier_value :
    merge_annotations
        [[("format", PyVal.pyStr "NetCDF-4")], [("format", PyVal.pyStr "Text")]]
      = Except.error PyErr.typeError ∧
    dictUpdate (dictUpdate [] [("format", PyVal.pyStr "NetCDF-4")])
        [("format", PyVal.pyStr "Text")]
      = [("format", PyVal.pyStr "Text")] :=
  ⟨rfl, rfl⟩

/-- C6: evaluating the merge ordering on the source's own sample rules
`a` and `b`.  `merge_annotations` orders its input with
`annotations.sort()`, Python's default comparison, which raises
`TypeError` on dictionaries — no specificity, `created_at` or `id`
ordering is performed (the documents carry no `created_at` at all), so
the claimed specificity-ascending processing does not happen. -/
theorem c6_sort_is_not_by_specificity :
    pySortDicts [sampleDocA, sampleDocB] = Except.error PyErr.typeError ∧
    merge_annotations [sampleDocA, sampleDocB] = Except.error PyErr.typeError :=
  ⟨rfl, rfl⟩

/-- C9: a rule whose `expires` is at or before the evaluation instant
is not excluded by the compiled filter.  With the instant 2026-10-12
and a rule expired since 2025-06-01, the expiry clause — which compares
against the hardcoded literal 2025-03-07 rather than the captured
instant — lets the rule through, and the full compiled query accepts
it, so it can appear in merged results. -/
theorem c9_expired_rule_passes_filter :
    esExpiryExcluded (some 20250601) = false ∧
    (20250601 : Int) ≤ 20261012 ∧
    compiledQueryAccepts 20261012 { path := "a/file.txt", size := some 5 }
        { expires := some 20250601 } = some true := by
  refine ⟨rfl, by decide, by decide⟩

/-- C10: the candidate-fetch step returns at most 1000 rules — the
search is issued with `size=1000`, so the store hands back at most that
many hits and the post-processed result list keeps the bound. -/
theorem c10_fetch_capped_at_1000 (hits : List (String × FBIA.Doc)) :
    (esFetchCandidates hits).length ≤ 1000 := by
  simp [esFetchCandidates, processHits, esSearchSize]

end FBIA
